import Mathlib

/-!
Verification of `src/app.py` (Streamlit + Google Drive search/combine app).

The Python program is shallowly embedded: the Drive folder hierarchy is a
finite tree (`Entry`), network and filesystem effects are oracles passed as
explicit arguments, and Streamlit UI calls (`st.warning`, `st.error`, plots)
are recorded in explicit logs.  Exceptions of `pandas` operations are
modelled with `Except`.
-/

set_option autoImplicit false

namespace DriveApp

mutual
/-- A node of the Drive folder hierarchy.  `folder` carries the id, the
title and the children returned by the query
`'<id>' in parents and trashed = false`; `file` carries the id, the title
and the optional `downloadUrl` metadata field. -/
inductive Entry where
  | folder (id : String) (title : String) (children : EntryList)
  | file (id : String) (title : String) (downloadUrl : Option String)

/-- A finite list of sibling entries (the result of one `ListFile` query). -/
inductive EntryList where
  | nil
  | cons (e : Entry) (es : EntryList)
end

/-- Build an `EntryList` from a Lean list literal. -/
def EntryList.ofList : List Entry → EntryList
  | [] => .nil
  | e :: es => .cons e (EntryList.ofList es)

/-- The record appended to `found_files` in `find_files` (src/app.py:66-71). -/
structure DFile where
  name : String
  path : String
  id : String
  download_url : Option String
  deriving Repr, DecidableEq

/-- Python `str.lower()` (restricted to character-wise lowering). -/
def lowerStr (s : String) : String := ⟨s.data.map Char.toLower⟩

/-- Python substring containment `needle in hay`. -/
def containsSub (needle : List Char) : List Char → Bool
  | [] => needle.isEmpty
  | c :: t => needle.isPrefixOf (c :: t) || containsSub needle t

/-- The filter of src/app.py:65:
`keyword.lower() in file['title'].lower() and file['title'].endswith(extension)`. -/
def file_matches (keyword title extension : String) : Bool :=
  containsSub (lowerStr keyword).data (lowerStr title).data
    && extension.data.isSuffixOf title.data

mutual
/-- The inner `recursive_search` of `find_files` (src/app.py:55-71), called
on the entry whose id is `current_folder_id`: list its children and walk
them.  Listing the children of a non-folder id yields nothing. -/
def recursive_search (keyword extension : String) :
    Entry → String → List DFile
  | .folder _ _ cs, current_path =>
      search_children keyword extension cs current_path
  | .file _ _ _, _ => []

/-- The `for file in file_list` loop body of `recursive_search`
(src/app.py:59-71): a subfolder is recursed into in place with the extended
path; a matching non-folder file is appended with its path. -/
def search_children (keyword extension : String) :
    EntryList → String → List DFile
  | .nil, _ => []
  | .cons f rest, current_path =>
      (match f with
        | .folder _ ftitle _ =>
            recursive_search keyword extension f (current_path ++ "/" ++ ftitle)
        | .file fid ftitle url =>
            if file_matches keyword ftitle extension then
              [{ name := ftitle, path := current_path ++ "/" ++ ftitle,
                 id := fid, download_url := url }]
            else [])
        ++ search_children keyword extension rest current_path
end

/-- `find_files(drive, folder_id, keyword, extension)` (src/app.py:52-74):
run `recursive_search` from the root folder with empty path. -/
def find_files (root : Entry) (keyword : String)
    (extension : String := ".xlsx") : List DFile :=
  recursive_search keyword extension root ""

mutual
/-- Reference enumeration (not in the source): every non-folder file in the
subtree of an entry, with the path the traversal would assign it, given the
path prefix `current_path` of the entry's children. -/
def files_under : Entry → String → List DFile
  | .folder _ _ cs, current_path => files_in_list cs current_path
  | .file _ _ _, _ => []

/-- Reference enumeration over a sibling list. -/
def files_in_list : EntryList → String → List DFile
  | .nil, _ => []
  | .cons f rest, current_path =>
      (match f with
        | .folder _ ftitle _ =>
            files_under f (current_path ++ "/" ++ ftitle)
        | .file fid ftitle url =>
            [{ name := ftitle, path := current_path ++ "/" ++ ftitle,
               id := fid, download_url := url }])
        ++ files_in_list rest current_path
end

example :
    find_files
      (.folder "r" "root" (.ofList
        [.file "f1" "tx_curr_a.xlsx" (some "u1"),
         .folder "d" "sub" (.ofList [.file "f2" "TX_CURR_b.xlsx" none]),
         .file "f3" "other.xlsx" (some "u3")]))
      "tx_curr" ".xlsx"
    = [{ name := "tx_curr_a.xlsx", path := "/tx_curr_a.xlsx",
         id := "f1", download_url := some "u1" },
       { name := "TX_CURR_b.xlsx", path := "/sub/TX_CURR_b.xlsx",
         id := "f2", download_url := none }] := by decide

mutual
/-- Traversing an entry yields exactly the matching files of its subtree. -/
theorem recursive_search_eq_filter (keyword extension : String) (e : Entry)
    (path : String) :
    recursive_search keyword extension e path
      = (files_under e path).filter
          (fun f => file_matches keyword f.name extension) := by
  match e with
  | .folder i t cs =>
      simpa [recursive_search, files_under] using
        search_children_eq_filter keyword extension cs path
  | .file i t u => simp [recursive_search, files_under]

/-- Walking a sibling list yields exactly the matching files below it. -/
theorem search_children_eq_filter (keyword extension : String)
    (es : EntryList) (path : String) :
    search_children keyword extension es path
      = (files_in_list es path).filter
          (fun f => file_matches keyword f.name extension) := by
  match es with
  | .nil => simp [search_children, files_in_list]
  | .cons f rest =>
      match f with
      | .folder i t cs =>
          simp only [search_children, files_in_list, List.filter_append]
          rw [recursive_search_eq_filter keyword extension (.folder i t cs)
                (path ++ "/" ++ t),
              search_children_eq_filter keyword extension rest path]
      | .file i t u =>
          simp only [search_children, files_in_list, List.filter_append,
            List.filter]
          rw [search_children_eq_filter keyword extension rest path]
          cases h : file_matches keyword t extension <;> simp [h]
end

/-- A chain of `n + 1` nested folders with a single matching file at the
bottom, used to show the traversal has no depth limit. -/
def nest : Nat → Entry
  | 0 => .folder "f0" "d" (.cons (.file "leaf" "a.xlsx" (some "u")) .nil)
  | n + 1 => .folder "f" "d" (.cons (nest n) .nil)

/-- The path the bottom file of `nest n` receives, starting from prefix `p`. -/
def deep_path : Nat → String → String
  | 0, p => p ++ "/" ++ "a.xlsx"
  | n + 1, p => deep_path n (p ++ "/" ++ "d")

theorem nest_is_folder (n : Nat) :
    ∃ i cs, nest n = .folder i "d" cs := by
  cases n <;> exact ⟨_, _, rfl⟩

theorem recursive_search_nest (n : Nat) (p : String) :
    recursive_search "a" ".xlsx" (nest n) p
      = [{ name := "a.xlsx", path := deep_path n p,
           id := "leaf", download_url := some "u" }] := by
  induction n generalizing p with
  | zero =>
      simp [nest, recursive_search, search_children, deep_path,
        show file_matches "a" "a.xlsx" ".xlsx" = true by decide]
  | succ n ih =>
      obtain ⟨i, cs, h⟩ := nest_is_folder n
      have hih := ih (p ++ "/" ++ "d")
      rw [h] at hih
      simp only [recursive_search] at hih
      simp only [nest, recursive_search, search_children, deep_path, h]
      simp [hih]

/-- C1: `find_files` returns exactly the non-folder files of the subtree of
`folder_id` whose title matches the keyword (after the code's lowercasing)
and whose title ends with the extension; folders and files outside the
subtree never appear, since `files_under` enumerates exactly the non-folder
descendants. -/
theorem find_files_exactly_matching_subtree (root : Entry)
    (keyword extension : String) :
    find_files root keyword extension
      = (files_under root "").filter
          (fun f => file_matches keyword f.name extension) :=
  recursive_search_eq_filter keyword extension root ""

/-- C4: the traversal is an unbounded depth-first walk: it finds the file at
the bottom of an arbitrarily deep folder chain (so it terminates on every
finite acyclic tree and has no depth limit), and it reaches every matching
file of the subtree, however deep. -/
theorem find_files_unbounded_dfs :
    (∀ n : Nat, find_files (nest n) "a" ".xlsx"
        = [{ name := "a.xlsx", path := deep_path n "",
             id := "leaf", download_url := some "u" }])
    ∧ (∀ (root : Entry) (keyword extension : String) (f : DFile),
        f ∈ files_under root "" →
        file_matches keyword f.name extension = true →
        f ∈ find_files root keyword extension) := by
  constructor
  · intro n
    exact recursive_search_nest n ""
  · intro root keyword extension f hmem hmatch
    rw [find_files, recursive_search_eq_filter, List.mem_filter]
    exact ⟨hmem, hmatch⟩

/-- Witness for C4 at depth 3 and at a concrete two-level tree. -/
theorem find_files_unbounded_dfs_witness :
    (find_files (nest 3) "a" ".xlsx"
        = [{ name := "a.xlsx", path := "/d/d/d/a.xlsx",
             id := "leaf", download_url := some "u" }])
    ∧ ({ name := "b.xlsx", path := "/sub/b.xlsx", id := "f2",
         download_url := none } : DFile)
        ∈ find_files
            (.folder "r" "root" (.cons
              (.folder "d" "sub" (.cons (.file "f2" "b.xlsx" none) .nil))
              .nil))
            "b" ".xlsx" :=
  ⟨find_files_unbounded_dfs.1 3,
   find_files_unbounded_dfs.2
     (.folder "r" "root" (.cons
       (.folder "d" "sub" (.cons (.file "f2" "b.xlsx" none) .nil))
       .nil))
     "b" ".xlsx"
     { name := "b.xlsx", path := "/sub/b.xlsx", id := "f2",
       download_url := none }
     (by decide) (by decide)⟩

/-- C8: the keyword comparison is case-insensitive (keywords with the same
lowercasing match the same titles) while the `endswith` comparison is
case-sensitive: 'DATA.XLSX' passes the keyword test for 'data' but fails
extension '.xlsx', so `find_files` drops it. -/
theorem find_files_keyword_ci_extension_cs :
    (∀ keyword keyword' title extension : String,
        lowerStr keyword = lowerStr keyword' →
        file_matches keyword title extension
          = file_matches keyword' title extension)
    ∧ containsSub (lowerStr "data").data (lowerStr "DATA.XLSX").data = true
    ∧ file_matches "data" "DATA.XLSX" ".xlsx" = false
    ∧ find_files
        (.folder "r" "root" (.cons (.file "f1" "DATA.XLSX" (some "u")) .nil))
        "data" ".xlsx" = [] := by
  refine ⟨?_, by decide, by decide, by decide⟩
  intro keyword keyword' title extension h
  simp only [file_matches, h]

/-- Witness for C8: two case variants of the keyword match identically. -/
theorem find_files_keyword_ci_extension_cs_witness :
    lowerStr "DaTa" = lowerStr "data"
    ∧ file_matches "DaTa" "my_data.xlsx" ".xlsx"
        = file_matches "data" "my_data.xlsx" ".xlsx" :=
  ⟨by decide,
   find_files_keyword_ci_extension_cs.1 "DaTa" "data" "my_data.xlsx" ".xlsx"
     (by decide)⟩

/-- A pandas row (cell contents kept opaque as strings). -/
abbrev Row := List String

/-- A pandas DataFrame, reduced to what the claims need: its rows in order
and its integer index. -/
structure DataFrame where
  rows : List Row
  index : List Nat
  deriving Repr, DecidableEq

/-- The network/parse oracle: `download url` is the dataframe produced by
`requests.get(url, headers)` followed by `pd.read_excel`, or `none` when
either of them raises. -/
structure NetEnv where
  download : String → Option DataFrame

/-- `load_excel_files(drive, files_info)` (src/app.py:78-96), instrumented
with its effects: the returned triple is the list `dfs`, the texts passed
to `st.warning`, and the urls passed to `requests.get`, each in program
order.  A file without `download_url` is skipped with a warning before any
request; a raising download/parse is caught, warned about, and skipped. -/
def load_excel_files (env : NetEnv) :
    List DFile → List DataFrame × List String × List String
  | [] => ([], [], [])
  | file_info :: rest =>
      let res := load_excel_files env rest
      match file_info.download_url with
      | none =>
          (res.1, ("⚠️ Impossible de télécharger " ++ file_info.name)
            :: res.2.1, res.2.2)
      | some download_url =>
          match env.download download_url with
          | some df => (df :: res.1, res.2.1, download_url :: res.2.2)
          | none =>
              (res.1, ("⚠️ Échec du chargement de " ++ file_info.name)
                :: res.2.1, download_url :: res.2.2)

/-- `pd.concat(dfs, ignore_index=True)` (src/app.py:110): raises
`ValueError` on an empty list; otherwise concatenates the rows in order
and renumbers the index `0..n-1`. -/
def pd_concat_ignore_index (dfs : List DataFrame) : Except String DataFrame :=
  if dfs.isEmpty then .error "ValueError: No objects to concatenate"
  else .ok { rows := (dfs.map DataFrame.rows).flatten,
             index := List.range ((dfs.map fun d => d.rows.length).sum) }

/-- `load_data(drive, folder_id, keyword, extension)` (src/app.py:100-111),
with the same effect instrumentation as `load_excel_files`: the first
component is the returned pair (`None, None` becomes `.ok none`), or the
escaping exception of the unguarded `pd.concat` as `.error`. -/
def load_data (env : NetEnv) (root : Entry) (keyword extension : String) :
    Except String (Option (DataFrame × List DFile))
      × List String × List String :=
  let files_found := find_files root keyword extension
  if files_found.isEmpty then (.ok none, [], [])
  else
    let res := load_excel_files env files_found
    match pd_concat_ignore_index res.1 with
    | .error e => (.error e, res.2.1, res.2.2)
    | .ok final_df => (.ok (some (final_df, files_found)), res.2.1, res.2.2)

/-- The warning `load_excel_files` emits for one file, if any. -/
def file_warning (env : NetEnv) (f : DFile) : Option String :=
  match f.download_url with
  | none => some ("⚠️ Impossible de télécharger " ++ f.name)
  | some u =>
      match env.download u with
      | some _ => none
      | none => some ("⚠️ Échec du chargement de " ++ f.name)

theorem load_excel_files_eq_filterMap (env : NetEnv)
    (files_info : List DFile) :
    load_excel_files env files_info
      = (files_info.filterMap (fun f => f.download_url.bind env.download),
         files_info.filterMap (file_warning env),
         files_info.filterMap (fun f => f.download_url)) := by
  induction files_info with
  | nil => rfl
  | cons f rest ih =>
      cases hu : f.download_url with
      | none =>
          simp [load_excel_files, List.filterMap_cons, file_warning, hu, ih]
      | some u =>
          cases hd : env.download u with
          | none =>
              simp [load_excel_files, List.filterMap_cons, file_warning,
                hu, hd, ih]
          | some df =>
              simp [load_excel_files, List.filterMap_cons, file_warning,
                hu, hd, ih]

/-- C5: the download loop is sequential and per-file: the requests issued
are exactly the download urls of the files, in list order, one request per
url-carrying file (so at most one per file and never a retry); a failed
file only contributes a warning, and every other file is still processed,
the successful ones appearing in order in `dfs`. -/
theorem load_excel_files_sequential_no_retry (env : NetEnv)
    (files_info : List DFile) :
    load_excel_files env files_info
      = (files_info.filterMap (fun f => f.download_url.bind env.download),
         files_info.filterMap (file_warning env),
         files_info.filterMap (fun f => f.download_url))
    ∧ (files_info.filterMap (fun f => f.download_url)).length
        ≤ files_info.length :=
  ⟨load_excel_files_eq_filterMap env files_info,
   List.length_filterMap_le _ _⟩

/-- C2: when `load_data` returns a dataset, it is the row-wise union of the
dataframes produced by `load_excel_files` on the found files: the rows are
their rows concatenated in order, the row count is the sum of their row
counts, and the index is renumbered `0..n-1` (`ignore_index=True`). -/
theorem load_data_rowwise_union (env : NetEnv) (root : Entry)
    (keyword extension : String) (df : DataFrame) (files : List DFile)
    (warns reqs : List String)
    (h : load_data env root keyword extension
          = (.ok (some (df, files)), warns, reqs)) :
    files = find_files root keyword extension
    ∧ df.rows = ((load_excel_files env files).1.map DataFrame.rows).flatten
    ∧ df.rows.length
        = ((load_excel_files env files).1.map fun d => d.rows.length).sum
    ∧ df.index = List.range df.rows.length := by
  simp only [load_data] at h
  cases he : (find_files root keyword extension).isEmpty with
  | true => simp [he] at h
  | false =>
      simp only [he, Bool.false_eq_true, if_false] at h
      cases hc : pd_concat_ignore_index
          (load_excel_files env (find_files root keyword extension)).1 with
      | error e => rw [hc] at h; simp at h
      | ok final_df =>
          rw [hc] at h
          simp only [Prod.mk.injEq, Except.ok.injEq, Option.some.injEq] at h
          obtain ⟨⟨hdf, hfiles⟩, -, -⟩ := h
          subst hfiles
          unfold pd_concat_ignore_index at hc
          cases hde : ((load_excel_files env
              (find_files root keyword extension)).1).isEmpty with
          | true => rw [hde] at hc; simp at hc
          | false =>
              rw [hde] at hc
              simp only [Bool.false_eq_true, if_false,
                Except.ok.injEq] at hc
              subst hc
              subst hdf
              refine ⟨rfl, rfl, ?_, ?_⟩
              · simp [List.length_flatten, List.map_map, Function.comp_def]
              · simp [List.length_flatten, List.map_map, Function.comp_def]

/-- Concrete environment mapping every url to a fixed two-row dataframe. -/
def ok_env : NetEnv := ⟨fun _ => some ⟨[["1"], ["2"]], [0, 1]⟩⟩

/-- Concrete root folder with one matching file. -/
def one_file_root : Entry :=
  .folder "r" "root" (.cons (.file "f1" "tx_curr.xlsx" (some "u1")) .nil)

/-- Witness for C2 at a one-file tree whose download succeeds. -/
theorem load_data_rowwise_union_witness :
    [({ name := "tx_curr.xlsx", path := "/tx_curr.xlsx", id := "f1",
        download_url := some "u1" } : DFile)]
      = find_files one_file_root "tx_curr" ".xlsx"
    ∧ ([["1"], ["2"]] : List Row)
        = ((load_excel_files ok_env
            [{ name := "tx_curr.xlsx", path := "/tx_curr.xlsx", id := "f1",
               download_url := some "u1" }]).1.map DataFrame.rows).flatten
    ∧ ([["1"], ["2"]] : List Row).length
        = ((load_excel_files ok_env
            [{ name := "tx_curr.xlsx", path := "/tx_curr.xlsx", id := "f1",
               download_url := some "u1" }]).1.map
            fun d => d.rows.length).sum
    ∧ ([0, 1] : List Nat) = List.range ([["1"], ["2"]] : List Row).length :=
  load_data_rowwise_union ok_env one_file_root "tx_curr" ".xlsx"
    ⟨[["1"], ["2"]], [0, 1]⟩
    [{ name := "tx_curr.xlsx", path := "/tx_curr.xlsx", id := "f1",
       download_url := some "u1" }]
    [] ["u1"] rfl

/-- Concrete environment where every download raises. -/
def failing_env : NetEnv := ⟨fun _ => none⟩

/-- C3 (code-bug evidence): with one found file whose download fails, the
caught per-file failure leaves `dfs` empty, and the unguarded
`pd.concat(dfs, ignore_index=True)` raises `ValueError`, which escapes
`load_data`: the run ends in an uncaught exception, not in a UI message. -/
theorem load_data_exception_escapes_when_all_downloads_fail :
    load_data failing_env one_file_root "tx_curr" ".xlsx"
      = (.error "ValueError: No objects to concatenate",
         ["⚠️ Échec du chargement de tx_curr.xlsx"], ["u1"]) := rfl

/-- C10: when the search finds nothing, `load_data` returns `(None, None)`
immediately: no request is issued and no dataframe or warning is produced. -/
theorem load_data_empty_search_no_effects (env : NetEnv) (root : Entry)
    (keyword extension : String)
    (h : find_files root keyword extension = []) :
    load_data env root keyword extension = (.ok none, [], []) := by
  simp [load_data, h]

/-- Witness for C10 at an empty root folder. -/
theorem load_data_empty_search_no_effects_witness :
    find_files (.folder "r" "root" .nil) "k" ".xlsx" = []
    ∧ load_data failing_env (.folder "r" "root" .nil) "k" ".xlsx"
        = (.ok none, [], []) :=
  ⟨rfl,
   load_data_empty_search_no_effects failing_env
     (.folder "r" "root" .nil) "k" ".xlsx" rfl⟩

/-- Authentication environment: which local files exist and how the
external `GoogleAuth` flow behaves when invoked. -/
structure AuthEnv where
  credentials_file_exists : Bool
  saved_credentials_valid : Bool
  client_secrets_exists : Bool
  webserver_auth_ok : Bool
  access_token_expired : Bool

/-- A Streamlit message emitted on the sidebar or the main page. -/
inductive UIMsg where
  | sidebar_error (text : String)
  | error (text : String)
  deriving Repr, DecidableEq

/-- An authenticated Drive session handle (opaque to this repository). -/
inductive Drive where
  | session
  deriving Repr, DecidableEq

/-- `authenticate_drive()` (src/app.py:17-41), returning the drive session
(or `None`) together with the messages shown.  `gauth.credentials` is set
when `credentials.json` exists and loads; otherwise the client-secrets
flow runs when `client_secrets.json` exists (succeeding or raising), and
with no client-secrets file a sidebar error is shown and `None` returned.
With credentials present, both the expired branch (`Refresh`) and the
fresh branch (`Authorize`) end at `GoogleDrive(gauth)`. -/
def authenticate_drive (env : AuthEnv) : Option Drive × List UIMsg :=
  let credentials_present :=
    env.credentials_file_exists && env.saved_credentials_valid
  if credentials_present then (some .session, [])
  else if env.client_secrets_exists then
    if env.webserver_auth_ok then (some .session, [])
    else (none, [.error "❌ Erreur lors de l'authentification"])
  else (none, [.sidebar_error "❌ client_secrets.json manquant."])

/-- The gate at the top of `main` (src/app.py:118-124): when
`authenticate_drive` returns `None`, `main` renders a connect button and
returns, never reaching the folder listing and search below. -/
def main_reaches_search (env : AuthEnv) : Bool :=
  ((authenticate_drive env).1).isSome

/-- C6: with neither `credentials.json` nor `client_secrets.json` present,
`authenticate_drive` shows the sidebar error and returns `None` without a
session, and `main` stops before any folder listing or search. -/
theorem authenticate_drive_missing_credentials (env : AuthEnv)
    (h1 : env.credentials_file_exists = false)
    (h2 : env.client_secrets_exists = false) :
    authenticate_drive env
      = (none, [.sidebar_error "❌ client_secrets.json manquant."])
    ∧ main_reaches_search env = false := by
  simp [authenticate_drive, main_reaches_search, h1, h2]

/-- Witness for C6 at the all-false environment. -/
theorem authenticate_drive_missing_credentials_witness :
    authenticate_drive ⟨false, false, false, false, false⟩
      = (none, [.sidebar_error "❌ client_secrets.json manquant."])
    ∧ main_reaches_search ⟨false, false, false, false, false⟩ = false :=
  authenticate_drive_missing_credentials
    ⟨false, false, false, false, false⟩ rfl rfl

/-- One column of the combined dataframe, abstracted to its name and
whether its dtype is numeric. -/
structure ColumnSpec where
  name : String
  numeric : Bool
  deriving Repr, DecidableEq

/-- A rendering action of the analysis tab. -/
inductive Tab2Action where
  | plot (col : String)
  | warn_skipped (col : String)
  | info_no_numeric
  deriving Repr, DecidableEq

/-- `final_df.select_dtypes(include=['number']).columns` (src/app.py:188):
the columns whose dtype is numeric. -/
def numeric_dtype_cols (cols : List ColumnSpec) : List ColumnSpec :=
  cols.filter fun c => c.numeric

/-- The analysis-tab loop (src/app.py:188-199): iterate `numeric_cols`;
for each, `pd.api.types.is_numeric_dtype(final_df[col])` (which holds
exactly for numeric-dtype columns, the very property `select_dtypes`
filtered on) decides between plotting and the skip warning; with no
numeric column at all, an info message is shown instead. -/
def tab2_render (cols : List ColumnSpec) : List Tab2Action :=
  let numeric_cols := numeric_dtype_cols cols
  if numeric_cols.length > 0 then
    numeric_cols.map fun c =>
      if c.numeric then .plot c.name else .warn_skipped c.name
  else [.info_no_numeric]

/-- C7 is false on the code: a dataframe with the non-numeric column `b`
produces no warning at all — `b` is dropped by `select_dtypes` before the
loop, so it is skipped silently, not with a UI message. -/
theorem tab2_no_warning_for_non_numeric_column :
    tab2_render [⟨"a", true⟩, ⟨"b", false⟩] = [.plot "a"]
    ∧ Tab2Action.warn_skipped "b" ∉ tab2_render [⟨"a", true⟩, ⟨"b", false⟩]
    := by decide

/-- C7 as amended: non-numeric columns are silently excluded from the
analysis loop; the tab only ever plots the numeric-dtype columns (or shows
the no-numeric info message), and the skip warning of the dead `else`
branch is never emitted for any column. -/
theorem tab2_non_numeric_silently_skipped (cols : List ColumnSpec) :
    tab2_render cols
      = (if (numeric_dtype_cols cols).length > 0 then
          (numeric_dtype_cols cols).map fun c => Tab2Action.plot c.name
        else [.info_no_numeric])
    ∧ ∀ c : String, Tab2Action.warn_skipped c ∉ tab2_render cols := by
  have hmap : (numeric_dtype_cols cols).map
      (fun c => if c.numeric then Tab2Action.plot c.name
                else Tab2Action.warn_skipped c.name)
      = (numeric_dtype_cols cols).map fun c => Tab2Action.plot c.name := by
    refine List.map_congr_left fun c hc => ?_
    have : c.numeric = true := (List.mem_filter.mp hc).2
    simp [this]
  constructor
  · simp only [tab2_render, hmap]
  · intro c
    simp only [tab2_render, hmap]
    by_cases h : (numeric_dtype_cols cols).length > 0
    · simp only [if_pos h, List.mem_map]
      rintro ⟨d, -, hd⟩
      exact Tab2Action.noConfusion hd
    · simp [if_neg h]

/-- Witness for the amended C7 at a concrete two-column dataframe. -/
theorem tab2_non_numeric_silently_skipped_witness :
    tab2_render [⟨"a", true⟩, ⟨"b", false⟩] = [Tab2Action.plot "a"]
    ∧ Tab2Action.warn_skipped "b" ∉ tab2_render [⟨"a", true⟩, ⟨"b", false⟩] :=
  ⟨(tab2_non_numeric_silently_skipped [⟨"a", true⟩, ⟨"b", false⟩]).1,
   (tab2_non_numeric_silently_skipped [⟨"a", true⟩, ⟨"b", false⟩]).2 "b"⟩

/-- Python dict insertion for one comprehension step: an existing key keeps
its position but takes the new value; a new key is appended. -/
def dict_insert :
    List (String × String) → String → String → List (String × String)
  | [], k, v => [(k, v)]
  | (k', v') :: rest, k, v =>
      if k' = k then (k', v) :: rest
      else (k', v') :: dict_insert rest k v

/-- Python dict lookup `m[k]`: the value at the unique matching key. -/
def dict_find : List (String × String) → String → Option String
  | [], _ => none
  | (k', v) :: rest, k => if k' = k then some v else dict_find rest k

/-- `get_root_folders(drive)` (src/app.py:45-48): the comprehension
`{f['title']: f['id'] for f in file_list}` evaluated left to right over
the `(title, id)` pairs of the listed root folders. -/
def get_root_folders (file_list : List (String × String)) :
    List (String × String) :=
  file_list.foldl (fun m f => dict_insert m f.1 f.2) []

theorem dict_find_insert (m : List (String × String)) (k v k' : String) :
    dict_find (dict_insert m k v) k'
      = if k = k' then some v else dict_find m k' := by
  induction m with
  | nil => simp [dict_insert, dict_find]
  | cons p rest ih =>
      obtain ⟨a, b⟩ := p
      by_cases ha : a = k
      · subst ha
        by_cases hk : a = k' <;> simp [dict_insert, dict_find, hk]
      · by_cases hk : a = k'
        · subst hk
          have : ¬ k = a := fun h => ha h.symm
          simp [dict_insert, dict_find, ha, this]
        · simp [dict_insert, dict_find, ha, hk, ih]

theorem dict_find_foldl (l : List (String × String))
    (m : List (String × String)) (k : String) :
    dict_find (l.foldl (fun m f => dict_insert m f.1 f.2) m) k
      = ((l.reverse.find? fun p => p.1 == k).map Prod.snd).or
          (dict_find m k) := by
  induction l generalizing m with
  | nil => simp
  | cons p t ih =>
      simp only [List.foldl_cons, List.reverse_cons]
      rw [ih, List.find?_append]
      cases hf : t.reverse.find? (fun p => p.1 == k) with
      | some x => simp [hf, Option.or]
      | none =>
          by_cases hp : p.1 = k
          · have hpb : (p.1 == k) = true := by simp [hp]
            simp [hf, List.find?, hp, hpb, dict_find_insert, Option.or]
          · have hpb : (p.1 == k) = false := by simp [hp]
            simp [hf, List.find?, hp, hpb, dict_find_insert, Option.or]

theorem mem_keys_dict_insert (m : List (String × String)) (k v x : String)
    (h : x ∈ (dict_insert m k v).map Prod.fst) :
    x = k ∨ x ∈ m.map Prod.fst := by
  induction m with
  | nil => simpa [dict_insert] using h
  | cons p rest ih =>
      obtain ⟨a, b⟩ := p
      by_cases ha : a = k
      · simp only [dict_insert, if_pos ha, List.map_cons,
          List.mem_cons] at h
        rcases h with h | h
        · exact Or.inr (by simp [h])
        · exact Or.inr (by simp [h])
      · simp only [dict_insert, if_neg ha, List.map_cons,
          List.mem_cons] at h
        rcases h with h | h
        · exact Or.inr (by simp [h])
        · rcases ih h with h1 | h2
          · exact Or.inl h1
          · exact Or.inr (by simp [h2])

theorem keys_nodup_dict_insert (m : List (String × String)) (k v : String)
    (h : (m.map Prod.fst).Nodup) :
    ((dict_insert m k v).map Prod.fst).Nodup := by
  induction m with
  | nil => simp [dict_insert]
  | cons p rest ih =>
      obtain ⟨a, b⟩ := p
      simp only [List.map_cons, List.nodup_cons] at h
      obtain ⟨hna, hrest⟩ := h
      by_cases ha : a = k
      · simp only [dict_insert, if_pos ha, List.map_cons, List.nodup_cons]
        exact ⟨hna, hrest⟩
      · simp only [dict_insert, if_neg ha, List.map_cons, List.nodup_cons]
        refine ⟨fun hmem => ?_, ih hrest⟩
        rcases mem_keys_dict_insert rest k v a hmem with h1 | h2
        · exact ha h1
        · exact hna h2

theorem keys_nodup_foldl (l : List (String × String))
    (m : List (String × String)) (h : (m.map Prod.fst).Nodup) :
    ((l.foldl (fun m f => dict_insert m f.1 f.2) m).map Prod.fst).Nodup := by
  induction l generalizing m with
  | nil => simpa using h
  | cons p t ih =>
      exact ih (dict_insert m p.1 p.2) (keys_nodup_dict_insert m p.1 p.2 h)

/-- C9: the folder dictionary maps each title to the id of the *last*
listed root folder with that title, and holds exactly one entry per title,
so the id of any earlier folder with a duplicated title is unreachable
through the selectbox. -/
theorem get_root_folders_later_entry_wins
    (file_list : List (String × String)) (title : String) :
    dict_find (get_root_folders file_list) title
      = (file_list.reverse.find? fun p => p.1 == title).map Prod.snd
    ∧ ((get_root_folders file_list).map Prod.fst).Nodup := by
  constructor
  · have h := dict_find_foldl file_list [] title
    simpa [get_root_folders, dict_find] using h
  · exact keys_nodup_foldl file_list [] (by simp)

example :
    dict_find (get_root_folders [("rep", "id1"), ("rep", "id2")]) "rep"
      = some "id2" := by decide

end DriveApp
